import Mathlib

/-!
Verification of the agent-orchestration core of the `ateliercode` repository
(`src-tauri/src`): the output parser, the config-driven CLI plugin, the
session registry, plugin discovery, and the history-pagination heuristic.

Strings are modelled as `List Char` (`Str`).  The Rust code matches lines
against fixed regular expressions from the `regex` crate; every pattern used
by the code is transcribed here as an executable matcher with the crate's
leftmost-first search semantics.  All inputs in the development are ASCII, so
the ASCII readings of `\s`, `\d`, case folding and `to_lowercase` coincide
with the Unicode ones the crate uses.
-/

/-- Strings as explicit character lists. -/
abbrev Str := List Char

/-- Coerce a Lean string literal to the `Str` model. -/
def str (s : String) : Str := s.data

/-- The characters of the regex class `\s` (ASCII part), as used by
`line.trim()` and by the `\s` patterns. -/
def isWs (c : Char) : Bool :=
  c = ' ' || c = '\t' || c = '\n' || c = '\r' || c = '\x0b' || c = '\x0c'

/-- Rust `str::trim` (both ends). -/
def trim (s : Str) : Str :=
  ((s.dropWhile isWs).reverse.dropWhile isWs).reverse

/-- Rust `str::to_lowercase` (ASCII fragment). -/
def toLowerStr (s : Str) : Str := s.map Char.toLower

/-- Boolean prefix test with plain equality. -/
def isPrefixOfB : Str → Str → Bool
  | [], _ => true
  | _ :: _, [] => false
  | p :: ps, c :: cs => p == c && isPrefixOfB ps cs

/-- Rust `str::contains(substring)`: the pattern occurs somewhere in `s`. -/
def containsSub (pat : Str) : Str → Bool
  | [] => pat.isEmpty
  | c :: rest => isPrefixOfB pat (c :: rest) || containsSub pat rest

/-- Case-insensitive literal match at the head of `s`; returns the rest.
Implements a regex literal under the `(?i)` flag. -/
def stripCI : Str → Str → Option Str
  | [], s => some s
  | _ :: _, [] => none
  | p :: ps, c :: cs => if p.toLower == c.toLower then stripCI ps cs else none

/-- Leftmost-first alternation of case-insensitive literals: the regex
`(?:a1|a2|...)`.  A branch taken here is never backtracked, which agrees with
the crate because in every pattern of the source the character that
distinguishes two branches can never be consumed by the continuation
(the continuations start with `:`, whitespace, or a quote). -/
def altStrip (alts : List Str) (s : Str) : Option Str :=
  match alts with
  | [] => none
  | a :: rest => (stripCI a s).orElse (fun _ => altStrip rest s)

/-- The regex `:?` (greedy optional colon; the continuation in every use is
`\s+`/`\s*`, which cannot consume `:`, so no backtracking is needed). -/
def stripOptColon (s : Str) : Str :=
  match s with
  | c :: rest => if c == ':' then rest else c :: rest
  | [] => []

/-- The regex `\s+` (greedy; every continuation in the source starts with a
non-whitespace character, so taking all whitespace is exact). -/
def ws1 (s : Str) : Option Str :=
  match s with
  | c :: rest => if isWs c then some (rest.dropWhile isWs) else none
  | [] => none

/-- Leftmost search: try the position matcher at every start, left to right,
as `Regex::captures` does. -/
def searchCapture {α : Type} (matchAt : Str → Option α) : Str → Option α
  | [] => matchAt []
  | c :: rest => (matchAt (c :: rest)).orElse (fun _ => searchCapture matchAt rest)

/-- A lazy capture `(.+?)` followed by a tail pattern: the shortest non-empty
run of non-newline characters whose remainder satisfies `tail`. -/
def lazyCapture (tail : Str → Bool) : Str → Option Str
  | [] => none
  | c :: rest =>
    if c = '\n' then none
    else if tail rest then some [c]
    else match lazyCapture tail rest with
         | some cap => some (c :: cap)
         | none => none

/-- The regex `.*?` followed by a sub-pattern: earliest position (not crossing
a newline) where the sub-pattern matches. -/
def lazyFind {α : Type} (f : Str → Option α) : Str → Option α
  | [] => f []
  | c :: rest =>
    match f (c :: rest) with
    | some r => some r
    | none => if c = '\n' then none else lazyFind f rest

/-- Numeric value of a capture of `\d+`, as `str::parse` reads it. -/
def natOfDigits (ds : Str) : Nat :=
  ds.foldl (fun a c => a * 10 + (c.toNat - 48)) 0

/-- Decimal rendering of a number, as `format!` prints an integer. -/
def natToStr (n : Nat) : Str := Nat.toDigits 10 n

-- ===========================================================================
-- Event model (src-tauri/src/output_parser.rs)
-- ===========================================================================

/-- `FileChangeType` from output_parser.rs. -/
inductive FileChangeType where
  | Created
  | Modified
  | Deleted
  | Renamed
deriving DecidableEq, Repr

/-- `ErrorSeverity` from output_parser.rs. -/
inductive ErrorSeverity where
  | Warning
  | Error
  | Fatal
deriving DecidableEq, Repr

/-- `AgentEvent` from output_parser.rs, field for field. -/
inductive AgentEvent where
  | FileChanged (path : Str) (change_type : FileChangeType) (timestamp : Int)
  | TestRan (name : Str) (passed : Bool) (details : Option Str) (timestamp : Int)
  | TaskCompleted (description : Str) (timestamp : Int)
  | TaskCreated (description : Str) (timestamp : Int)
  | Error (message : Str) (severity : ErrorSeverity) (timestamp : Int)
  | Warning (message : Str) (timestamp : Int)
  | CommandExecuted (command : Str) (exit_code : Int) (output : Option Str) (timestamp : Int)
  | Thinking (message : Option Str) (timestamp : Int)
  | MessageReceived (content : Str) (timestamp : Int)
  | InputRequired (prompt : Str) (timestamp : Int)
  | RawOutput (line : Str) (timestamp : Int)
deriving DecidableEq, Repr

-- ===========================================================================
-- The compiled patterns of OutputParser::new, one matcher per regex.
-- Each `...At` function matches its pattern anchored at the start of the
-- input and returns the group-1 capture; search is added by `searchCapture`.
-- ===========================================================================

/-- Common shape `<alts>:?\s+(<cls>+)`: alternation, optional colon, required
whitespace, then a greedy non-empty capture of characters in `cls`. -/
def altColonWsCapture (alts : List Str) (cls : Char → Bool) (s : Str) : Option Str :=
  match altStrip alts s with
  | none => none
  | some r1 =>
    match ws1 (stripOptColon r1) with
    | none => none
    | some r2 =>
      let cap := r2.takeWhile cls
      if cap.isEmpty then none else some cap

/-- `(?i)(?:created?|new file):?\s+([^\s\n]+)` at a position.  `created?`
expands, greedily, to the branches `created` then `create`. -/
def fileCreatedAt (s : Str) : Option Str :=
  altColonWsCapture [str "created", str "create", str "new file"] (fun c => !isWs c) s

/-- `(?i)(?:modified?|updated?):?\s+([^\s\n]+)` at a position. -/
def fileModifiedAt (s : Str) : Option Str :=
  altColonWsCapture [str "modified", str "modifie", str "updated", str "update"]
    (fun c => !isWs c) s

/-- `(?i)(?:edited?|editing):?\s+([^\s\n]+)` at a position. -/
def fileEditedAt (s : Str) : Option Str :=
  altColonWsCapture [str "edited", str "edite", str "editing"] (fun c => !isWs c) s

/-- `(?i)(?:deleted?|removed?):?\s+([^\s\n]+)` at a position. -/
def fileDeletedAt (s : Str) : Option Str :=
  altColonWsCapture [str "deleted", str "delete", str "removed", str "remove"]
    (fun c => !isWs c) s

/-- `(?i)(?:wrote?|writing):?\s+(?:to\s+)?([^\s\n]+)` at a position, with the
crate's backtracking on the optional `to\s+` group. -/
def fileWroteAt (s : Str) : Option Str :=
  match altStrip [str "wrote", str "wrot", str "writing"] s with
  | none => none
  | some r1 =>
    match ws1 (stripOptColon r1) with
    | none => none
    | some r3 =>
      let capAt := fun (t : Str) =>
        let cap := t.takeWhile (fun c => !isWs c)
        if cap.isEmpty then none else some cap
      match stripCI (str "to") r3 with
      | some t =>
        match ws1 t with
        | some t2 => (capAt t2).orElse (fun _ => capAt r3)
        | none => capAt r3
      | none => capAt r3

/-- Tail `\s+(?:passed|ok)` of the test_passed pattern. -/
def testPassedTail (s : Str) : Bool :=
  match ws1 s with
  | some r => (altStrip [str "passed", str "ok"] r).isSome
  | none => false

/-- `(?i)(?:test|spec)\s+(.+?)\s+(?:passed|ok)` at a position. -/
def testPassedAt (s : Str) : Option Str :=
  match altStrip [str "test", str "spec"] s with
  | none => none
  | some r1 =>
    match ws1 r1 with
    | none => none
    | some r2 => lazyCapture testPassedTail r2

/-- Tail `\s+(?:failed|error)` of the test_failed pattern. -/
def testFailedTail (s : Str) : Bool :=
  match ws1 s with
  | some r => (altStrip [str "failed", str "error"] r).isSome
  | none => false

/-- `(?i)(?:test|spec)\s+(.+?)\s+(?:failed|error)` at a position. -/
def testFailedAt (s : Str) : Option Str :=
  match altStrip [str "test", str "spec"] s with
  | none => none
  | some r1 =>
    match ws1 r1 with
    | none => none
    | some r2 => lazyCapture testFailedTail r2

/-- `(\d+)\s+<lit>`: greedy digits, whitespace, then a literal; returns the
digit capture and the rest after the literal. -/
def digitsWsLit (lit : Str) (s : Str) : Option (Str × Str) :=
  let ds := s.takeWhile Char.isDigit
  if ds.isEmpty then none
  else
    match ws1 (s.drop ds.length) with
    | none => none
    | some r =>
      match stripCI lit r with
      | some r2 => some (ds, r2)
      | none => none

/-- `(?i)(\d+)\s+passed.*?(\d+)\s+failed` at a position; returns both digit
captures. -/
def testSummaryAt (s : Str) : Option (Str × Str) :=
  match digitsWsLit (str "passed") s with
  | none => none
  | some (p, rest) =>
    match lazyFind (fun t => digitsWsLit (str "failed") t) rest with
    | some (f, _) => some (p, f)
    | none => none

/-- Quote characters of the command pattern: backtick, apostrophe, `\x22`. -/
def isQuoteC (c : Char) : Bool :=
  c == Char.ofNat 96 || c == Char.ofNat 39 || c == Char.ofNat 34

/-- `(?i)(?:ran?|executed?|running):?\s+[quote]?([^quote]+)[quote]?` at a
position (command_executed_regex; `ran?` expands to `ran` then `ra`). -/
def commandAt (s : Str) : Option Str :=
  match altStrip [str "ran", str "ra", str "executed", str "execute", str "running"] s with
  | none => none
  | some r1 =>
    match ws1 (stripOptColon r1) with
    | none => none
    | some r3 =>
      let r4 := match r3 with
                | c :: rest => if isQuoteC c then rest else c :: rest
                | [] => []
      let cap := r4.takeWhile (fun c => !isQuoteC c)
      if cap.isEmpty then none else some cap

/-- `(?i)exit(?:\s+code)?:?\s*(\d+)` at a position (command_exit_code_regex). -/
def exitCodeAt (s : Str) : Option Str :=
  match stripCI (str "exit") s with
  | none => none
  | some r1 =>
    let r2 := match ws1 r1 with
              | some t =>
                match stripCI (str "code") t with
                | some t2 => t2
                | none => r1
              | none => r1
    let r4 := (stripOptColon r2).dropWhile isWs
    let ds := r4.takeWhile Char.isDigit
    if ds.isEmpty then none else some ds

/-- Common shape `<alts>:?\s+(.+)`: greedy capture of the rest of the line
(any characters except newline), used by the error, warning, fatal and
task_done patterns. -/
def altColonWsRest (alts : List Str) (s : Str) : Option Str :=
  altColonWsCapture alts (fun c => c ≠ '\n') s

/-- Tail `\s+(?:completed?|done|finished)` of the task_complete pattern. -/
def taskCompleteTail (s : Str) : Bool :=
  match ws1 s with
  | some r => (altStrip [str "completed", str "complete", str "done", str "finished"] r).isSome
  | none => false

/-- `(?i)(?:task|job)\s+(.+?)\s+(?:completed?|done|finished)` at a position. -/
def taskCompleteAt (s : Str) : Option Str :=
  match altStrip [str "task", str "job"] s with
  | none => none
  | some r1 =>
    match ws1 r1 with
    | none => none
    | some r2 => lazyCapture taskCompleteTail r2

/-- Tail `\s+(?:created?|added?)` of the task_created pattern. -/
def taskCreatedTail (s : Str) : Bool :=
  match ws1 s with
  | some r => (altStrip [str "created", str "create", str "added", str "adde"] r).isSome
  | none => false

/-- `(?i)(?:task|job)\s+(.+?)\s+(?:created?|added?)` at a position. -/
def taskCreatedAt (s : Str) : Option Str :=
  match altStrip [str "task", str "job"] s with
  | none => none
  | some r1 =>
    match ws1 r1 with
    | none => none
    | some r2 => lazyCapture taskCreatedTail r2

-- ===========================================================================
-- OutputParser detector methods (output_parser.rs lines 230-477).
-- `OutputParser::new` only compiles the fixed patterns above, so the parser
-- carries no state and its methods are plain functions of the line.
-- ===========================================================================

/-- `OutputParser::parse_file_change`: the five file regexes are tried in
source order and the first match returns, so at most one event is produced. -/
def parse_file_change (line : Str) (timestamp : Int) : Option AgentEvent :=
  match searchCapture fileCreatedAt line with
  | some path => some (.FileChanged (trim path) .Created timestamp)
  | none =>
  match searchCapture fileModifiedAt line with
  | some path => some (.FileChanged (trim path) .Modified timestamp)
  | none =>
  match searchCapture fileEditedAt line with
  | some path => some (.FileChanged (trim path) .Modified timestamp)
  | none =>
  match searchCapture fileWroteAt line with
  | some path => some (.FileChanged (trim path) .Modified timestamp)
  | none =>
  match searchCapture fileDeletedAt line with
  | some path => some (.FileChanged (trim path) .Deleted timestamp)
  | none => none

/-- Largest i32, the bound of `str::parse::<i32>` on a digit capture. -/
def i32Max : Nat := 2147483647

/-- `OutputParser::parse_test_result`. -/
def parse_test_result (line : Str) (timestamp : Int) : Option AgentEvent :=
  match searchCapture testPassedAt line with
  | some nm => some (.TestRan (trim nm) true none timestamp)
  | none =>
  match searchCapture testFailedAt line with
  | some nm => some (.TestRan (trim nm) false (some line) timestamp)
  | none =>
  match searchCapture testSummaryAt line with
  | some (p, f) =>
    if natOfDigits p ≤ i32Max && natOfDigits f ≤ i32Max then
      some (.TestRan (str "Test Summary") (natOfDigits f == 0)
        (some (natToStr (natOfDigits p) ++ str " passed, " ++ natToStr (natOfDigits f) ++ str " failed"))
        timestamp)
    else none
  | none => none

/-- `OutputParser::parse_command_execution`: the exit code is looked up on the
same line by a second, independent regex, defaulting to 0. -/
def parse_command_execution (line : Str) (timestamp : Int) : Option AgentEvent :=
  match searchCapture commandAt line with
  | some cmd =>
    let exit_code : Int :=
      match searchCapture exitCodeAt line with
      | some ds => if natOfDigits ds ≤ i32Max then (natOfDigits ds : Int) else 0
      | none => 0
    some (.CommandExecuted (trim cmd) exit_code none timestamp)
  | none => none

/-- `OutputParser::parse_error_or_warning`: fatal, then error, then warning,
then the generic fallback on "failed"/"cannot"/"unable to". -/
def parse_error_or_warning (line : Str) (timestamp : Int) : Option AgentEvent :=
  match searchCapture (altColonWsRest [str "fatal"]) line with
  | some msg => some (.Error (trim msg) .Fatal timestamp)
  | none =>
  match searchCapture (altColonWsRest [str "error"]) line with
  | some msg => some (.Error (trim msg) .Error timestamp)
  | none =>
  match searchCapture (altColonWsRest [str "warning"]) line with
  | some msg => some (.Warning (trim msg) timestamp)
  | none =>
  let lower := toLowerStr line
  if containsSub (str "failed") lower || containsSub (str "cannot") lower
      || containsSub (str "unable to") lower then
    some (.Error line .Error timestamp)
  else none

/-- `OutputParser::parse_task_completion`. -/
def parse_task_completion (line : Str) (timestamp : Int) : Option AgentEvent :=
  match searchCapture taskCompleteAt line with
  | some d => some (.TaskCompleted (trim d) timestamp)
  | none =>
  match searchCapture (altColonWsRest [str "completed", str "complete", str "done", str "finished"]) line with
  | some d => some (.TaskCompleted (trim d) timestamp)
  | none => none

/-- `OutputParser::parse_task_created`. -/
def parse_task_created (line : Str) (timestamp : Int) : Option AgentEvent :=
  match searchCapture taskCreatedAt line with
  | some d => some (.TaskCreated (trim d) timestamp)
  | none => none

/-- `OutputParser::is_thinking`. -/
def is_thinking (line : Str) : Bool :=
  let lower := toLowerStr line
  containsSub (str "thinking") lower
    || containsSub (str "processing") lower
    || containsSub (str "analyzing") lower
    || containsSub (str "working on") lower
    || containsSub (str "examining") lower
    || containsSub (str "considering") lower
    || containsSub (str "loading") lower

/-- `OutputParser::is_input_required`.  `line.len() < 200` is a byte length
in Rust; lengths coincide on the ASCII inputs considered here. -/
def is_input_required (line : Str) : Bool :=
  let lower := toLowerStr line
  (containsSub (str "y/n") lower
    || containsSub (str "(y/n)") lower
    || containsSub (str "yes/no") lower
    || containsSub (str "press enter") lower
    || containsSub (str "continue?") lower
    || containsSub (str "proceed?") lower)
  || (((trim line).getLast?.map (fun c => c == '?')).getD false && line.length < 200)

/-- An `Option` result pushed onto the event vector if present. -/
def optList {α : Type} : Option α → List α
  | some a => [a]
  | none => []

/-- The body of the `for` loop of `OutputParser::parse_lines` for one line:
skip whitespace-only lines, otherwise a RawOutput event (with the original,
untrimmed line) followed by each detector applied to the trimmed line. -/
def perLineEvents (now : Int) (line : Str) : List AgentEvent :=
  let trimmed := trim line
  if trimmed.isEmpty then []
  else
    AgentEvent.RawOutput line now
      :: (optList (parse_file_change trimmed now)
        ++ optList (parse_test_result trimmed now)
        ++ optList (parse_command_execution trimmed now)
        ++ optList (parse_error_or_warning trimmed now)
        ++ optList (parse_task_completion trimmed now)
        ++ optList (parse_task_created trimmed now)
        ++ (if is_thinking trimmed then [AgentEvent.Thinking (some trimmed) now] else [])
        ++ (if is_input_required trimmed then [AgentEvent.InputRequired trimmed now] else []))

/-- `OutputParser::parse_lines`; `now` is the timestamp taken once per call. -/
def parse_lines (lines : List Str) (now : Int) : List AgentEvent :=
  lines.flatMap (perLineEvents now)

/-- `OutputParser::parse_line`. -/
def parse_line (line : Str) (now : Int) : List AgentEvent :=
  parse_lines [line] now

-- ===========================================================================
-- History pagination (src-tauri/src/plugins/generic_cli.rs lines 645-737)
-- ===========================================================================

/-- `HistoryMessage` from plugin.rs; the metadata map is an association
list. -/
structure HistoryMessage where
  id : Str
  role : Str
  content : Str
  timestamp : Int
  metadata : List (Str × Str)
deriving DecidableEq, Repr

/-- `PaginatedHistory` from plugin.rs. -/
structure PaginatedHistory where
  messages : List HistoryMessage
  total_count : Nat
  has_more : Bool
  offset : Nat
deriving DecidableEq, Repr

/-- The continuation/summary test applied to each message inside
`get_conversation_history_paginated` (the closure given to `rposition`).
`content.len() > 500` is a byte length; it equals the character count on
ASCII contents. -/
def is_continuation (msg : HistoryMessage) : Bool :=
  containsSub (str "This session is being continued") msg.content
    || containsSub (str "Conversation Flow Analysis") msg.content
    || containsSub (str "Summary:") msg.content
    || containsSub (str "conversation was summarized") msg.content
    || containsSub (str "summarized below") msg.content
    || containsSub (str "## Summary") msg.content
    || (containsSub (str "Analysis:") msg.content && msg.content.length > 500)

/-- `Iterator::rposition`: index of the last element satisfying `p`. -/
def rposition {α : Type} (p : α → Bool) : List α → Option Nat
  | [] => none
  | a :: rest =>
    match rposition p rest with
    | some i => some (i + 1)
    | none => if p a then some 0 else none

/-- `GenericCliPlugin::get_conversation_history_paginated`, given the full
chronological history `all_messages` (which the method obtains from
`get_conversation_history`, an external CLI call).  `usize` arithmetic is
`Nat` arithmetic: `saturating_sub` is truncated subtraction. -/
def get_conversation_history_paginated
    (all_messages : List HistoryMessage) (offset limit : Nat) : PaginatedHistory :=
  let continuation_index := rposition is_continuation all_messages
  let filtered_messages :=
    match continuation_index with
    | some idx => all_messages.drop idx
    | none => all_messages.drop (all_messages.length - limit)
  let total_count := filtered_messages.length
  let reversed_messages := filtered_messages.reverse
  match continuation_index with
  | some _ =>
    { messages := reversed_messages, total_count := total_count,
      has_more := false, offset := offset }
  | none =>
    let start := min offset total_count
    let stop := min (offset + limit) total_count
    { messages := (reversed_messages.drop start).take (stop - start),
      total_count := total_count,
      has_more := decide (stop < total_count), offset := offset }

-- ===========================================================================
-- Plugin configuration (src-tauri/src/plugins/config.rs)
-- ===========================================================================

/-- `PluginMetadata` from config.rs. -/
structure PluginMetadata where
  name : Str
  display_name : Str
  version : Str
  description : Str
  author : Option Str
  homepage : Option Str
  cli_command : Str
  icon : Option Str
  color : Option Str
deriving DecidableEq, Repr

/-- `PluginCapabilities` from config.rs. -/
structure PluginCapabilities where
  session_resume : Bool
  streaming_output : Bool
  tool_use : Bool
  multi_turn : Bool
  file_context : Bool
  thinking : Bool
deriving DecidableEq, Repr

/-- `PluginCommands` from config.rs. -/
structure PluginCommands where
  start_session : List Str
  send_message : List Str
  resume_session : Option (List Str)
  list_sessions : Option (List Str)
  get_history : Option (List Str)
  get_version : Option (List Str)
deriving DecidableEq, Repr

/-- `OutputParsing` from config.rs; the `event_patterns` map is an
association list. -/
structure OutputParsing where
  session_id_pattern : Option Str
  output_format : Str
  session_id_json_path : Option Str
  event_patterns : List (Str × Str)
deriving DecidableEq, Repr

/-- `PluginConfig` from config.rs. -/
structure PluginConfig where
  plugin : PluginMetadata
  capabilities : PluginCapabilities
  commands : PluginCommands
  output_parsing : OutputParsing
deriving DecidableEq, Repr

/-- `PluginConfig::validate`: CLI command non-empty, then the two required
command templates non-empty, in source order. -/
def PluginConfig.validate (c : PluginConfig) : Except Str Unit :=
  if c.plugin.cli_command.isEmpty then
    Except.error (str "Plugin CLI command cannot be empty")
  else if c.commands.start_session.isEmpty then
    Except.error (str "Plugin must define start_session command")
  else if c.commands.send_message.isEmpty then
    Except.error (str "Plugin must define send_message command")
  else Except.ok ()

/-- The brace characters of a `{variable}` placeholder. -/
def lbrace : Char := Char.ofNat 123

/-- Closing brace of a placeholder. -/
def rbrace : Char := Char.ofNat 125

/-- `format!("{{{}}}", key)`: the literal placeholder text for a key. -/
def placeholder (key : Str) : Str := lbrace :: (key ++ [rbrace])

/-- Recursion worker for `str::replace`.  The `fuel` argument only makes the
recursion structural: each step consumes at least one character of `s`, so
with `fuel = s.length` the zero-fuel clause is unreachable
(`replaceAllF_spec` below is proved for every sufficient fuel). -/
def replaceAllF (pat rep : Str) : Nat → Str → Str
  | _, [] => []
  | 0, s => s
  | fuel + 1, c :: rest =>
    if !pat.isEmpty && isPrefixOfB pat (c :: rest) then
      rep ++ replaceAllF pat rep fuel ((c :: rest).drop pat.length)
    else
      c :: replaceAllF pat rep fuel rest

/-- Rust `str::replace`: replace every non-overlapping occurrence of `pat`,
scanning left to right.  (The patterns used by `replace_variables` are
placeholders and therefore never empty; an empty `pat` is returned
unchanged here.) -/
def replaceAll (pat rep s : Str) : Str := replaceAllF pat rep s.length s

/-- The loop body of `PluginConfig::replace_variables` for one argument: the
fold of `str::replace` over the variable map (`vars` lists the map's entries
in iteration order). -/
def substArg (vars : List (Str × Str)) (arg : Str) : Str :=
  vars.foldl (fun acc kv => replaceAll (placeholder kv.1) kv.2 acc) arg

/-- `PluginConfig::replace_variables`: element-wise substitution over the
command template. -/
def replace_variables (vars : List (Str × Str)) (template : List Str) : List Str :=
  template.map (substArg vars)

/-- Occurrence test for a pattern inside an argument (used to state that an
argument without any placeholder is left unchanged). -/
def occursIn (pat : Str) : Str → Bool
  | [] => pat.isEmpty
  | c :: rest => isPrefixOfB pat (c :: rest) || occursIn pat rest

-- ===========================================================================
-- GenericCliPlugin instantiation (src-tauri/src/plugins/generic_cli.rs 43-49)
-- ===========================================================================

/-- `GenericCliPlugin` (generic_cli.rs): the adapter owns its config; the
session map starts empty in `new` and no claim below touches it. -/
structure GenericCliPlugin where
  config : PluginConfig
deriving DecidableEq, Repr

/-- `GenericCliPlugin::new`: validate the config, then construct. -/
def GenericCliPlugin.new (config : PluginConfig) : Except Str GenericCliPlugin :=
  match config.validate with
  | Except.error e => Except.error e
  | Except.ok _ => Except.ok { config := config }

-- ===========================================================================
-- Plugin discovery and loading (src-tauri/src/plugins/loader.rs,
-- src-tauri/src/plugin.rs PluginManager::discover_and_load)
-- ===========================================================================

/-- One subdirectory of the plugin root, as the loader observes it:
whether `plugin.toml` exists, what it parses to (`none` = parse error),
whether a file with the platform library extension is present
(`find_library_file`), and whether `Library::new` + the `create_plugin`
symbol + a non-null constructor all succeed on that file (an external
oracle covering the missing-symbol / wrong-ABI / bad-constructor cases). -/
structure PluginDirEntry where
  has_manifest_file : Bool
  manifest_parses : Option PluginConfig
  has_library_file : Bool
  dynamic_load_ok : Bool
deriving DecidableEq, Repr

/-- A discovered manifest (`PluginManifest` from loader.rs): the parsed
config plus the loadability of the library file found next to it. -/
structure PluginManifestM where
  config : PluginConfig
  dynamic_load_ok : Bool
deriving DecidableEq, Repr

/-- `load_plugin_manifest`: parse the TOML, then `find_library_file` — if no
library file exists in the directory this *fails* and the manifest is not
produced. -/
def load_plugin_manifest (e : PluginDirEntry) : Option PluginManifestM :=
  match e.manifest_parses with
  | none => none
  | some c => if e.has_library_file then some { config := c, dynamic_load_ok := e.dynamic_load_ok } else none

/-- `discover_plugins`: keep, in order, each subdirectory whose manifest file
exists and loads; errors are logged and skipped. -/
def discover_plugins (dirs : List PluginDirEntry) : List PluginManifestM :=
  dirs.flatMap (fun e =>
    if e.has_manifest_file then optList (load_plugin_manifest e) else [])

/-- A plugin registered by `PluginManager::discover_and_load`: either the
object returned by the dynamic library (identified here by its manifest) or
the config-driven fallback adapter. -/
inductive LoadedPlugin where
  | dynamic (m : PluginManifestM)
  | configBased (p : GenericCliPlugin)
deriving DecidableEq, Repr

/-- `PluginManager::discover_and_load`: for each discovered manifest try the
dynamic library first; on failure fall back to `GenericCliPlugin::new`; if
that also fails the plugin is skipped. -/
def discover_and_load (dirs : List PluginDirEntry) : List LoadedPlugin :=
  (discover_plugins dirs).flatMap (fun m =>
    if m.dynamic_load_ok then [LoadedPlugin.dynamic m]
    else
      match GenericCliPlugin.new m.config with
      | Except.ok p => [LoadedPlugin.configBased p]
      | Except.error _ => [])

-- ===========================================================================
-- Session registry and subprocess control (src-tauri/src/agent_manager.rs)
--
-- The registry operations are modelled as atomic transitions on an explicit
-- state.  This is faithful for the sequential traces the claims quantify
-- over: every mutation of the session map happens under the registry lock,
-- and the child-process holder's own lock serialises `kill` against the
-- exit-waiter, so by the time `send_message`'s initial `kill_active_process`
-- returns, the previous child is dead (killed, or already exited and taken
-- by the waiter) and its holder slot is empty.
--
-- Session ids are drawn from a counter (the code draws fresh UUID v4 ids;
-- only freshness matters).  Child process ids are likewise drawn from a
-- counter, and `live` is the model's ledger of OS processes that have been
-- spawned and not yet killed or exited.  `spawned` records which session
-- spawned which pid (bookkeeping used to state "child process associated
-- with a session"; the code's equivalent is the pid stored per send).
-- ===========================================================================

/-- The per-session state of `RunningSession` that the lifecycle claims
touch: the vendor (Claude) session id, the last recorded pid, and the
contents of the single-slot `active_child` holder. -/
structure AMSession where
  claude_session_id : Option Str
  pid : Option Nat
  active_child : Option Nat
deriving DecidableEq, Repr

/-- The `AgentManager` registry state. -/
structure AMState where
  sessions : List (Nat × AMSession)
  live : List Nat
  spawned : List (Nat × Nat)
  nextPid : Nat
  nextSid : Nat
deriving DecidableEq, Repr

/-- Lookup in the session map (first occurrence; the map never holds
duplicate keys, see `Inv`). -/
def lookupS (sid : Nat) : List (Nat × AMSession) → Option AMSession
  | [] => none
  | (k, v) :: rest => if k = sid then some v else lookupS sid rest

/-- Update one entry of the session map in place. -/
def updateS (sid : Nat) (f : AMSession → AMSession) : List (Nat × AMSession) → List (Nat × AMSession)
  | [] => []
  | (k, v) :: rest => if k = sid then (k, f v) :: rest else (k, v) :: updateS sid f rest

/-- Remove one entry of the session map (`HashMap::remove`). -/
def removeS (sid : Nat) : List (Nat × AMSession) → List (Nat × AMSession)
  | [] => []
  | (k, v) :: rest => if k = sid then rest else (k, v) :: removeS sid rest

/-- Boolean membership in the live-pid ledger. -/
def memN (a : Nat) : List Nat → Bool
  | [] => false
  | b :: rest => a == b || memN a rest

/-- Remove a pid from the live ledger (the process is killed or has
exited). -/
def eraseN (a : Nat) : List Nat → List Nat
  | [] => []
  | b :: rest => if b == a then rest else b :: eraseN a rest

/-- The empty registry produced by `AgentManager::new`. -/
def initAM : AMState :=
  { sessions := [], live := [], spawned := [], nextPid := 0, nextSid := 0 }

/-- `AgentManager::kill_active_process`: if the session exists and its holder
slot holds a child, kill it, wait for it, and clear the slot; otherwise do
nothing.  (When the exit-waiter holds the slot's lock, the call instead
blocks until the child has exited and finds the slot already cleared — the
post-state is the same.) -/
def kill_active_process (st : AMState) (sid : Nat) : AMState :=
  match lookupS sid st.sessions with
  | some sess =>
    match sess.active_child with
    | some pid =>
      { st with
          live := eraseN pid st.live,
          sessions := updateS sid (fun s => { s with active_child := none }) st.sessions }
    | none => st
  | none => st

/-- `AgentManager::start_session`: insert a fresh session with no child; for
Claude-type sessions an init call may populate `claude_session_id`, passed
here as `resume`.  Returns the new session id. -/
def start_session (st : AMState) (resume : Option Str) : AMState × Nat :=
  let sid := st.nextSid
  ({ st with
      sessions := (sid, { claude_session_id := resume, pid := none, active_child := none })
        :: st.sessions,
      nextSid := sid + 1 }, sid)

/-- `AgentManager::send_message`: kill any active child first, then (if the
session exists) spawn a fresh child, record its pid in the session and store
it in the holder slot.  An unknown session id is a "Session not found"
error.  (A spawn failure would return early adding no child, which preserves
every property proved below.) -/
def send_message (st : AMState) (sid : Nat) : AMState × Except Str Unit :=
  let st1 := kill_active_process st sid
  match lookupS sid st1.sessions with
  | none => (st1, Except.error (str "Session not found"))
  | some _ =>
    let pid := st1.nextPid
    ({ st1 with
        live := pid :: st1.live,
        spawned := (sid, pid) :: st1.spawned,
        nextPid := pid + 1,
        sessions := updateS sid (fun s => { s with pid := some pid, active_child := some pid })
          st1.sessions }, Except.ok ())

/-- `AgentManager::stop_session`: kill any active child, then remove the
session; an unknown id is the error `Session not found: {id}`. -/
def stop_session (st : AMState) (sid : Nat) : AMState × Except Str Unit :=
  let st1 := kill_active_process st sid
  match lookupS sid st1.sessions with
  | some _ => ({ st1 with sessions := removeS sid st1.sessions }, Except.ok ())
  | none => (st1, Except.error (str "Session not found: " ++ natToStr sid))

/-- Clear a session's holder slot if it holds the given pid. -/
def clearHolder (pid : Nat) (kv : Nat × AMSession) : Nat × AMSession :=
  if kv.2.active_child = some pid then (kv.1, { kv.2 with active_child := none }) else kv

/-- Natural termination of a child process: the exit-waiter task takes the
child from the holder slot and `wait` returns; the pid leaves the live
ledger and any holder slot pointing at it is cleared. -/
def proc_exit (st : AMState) (pid : Nat) : AMState :=
  { st with
      live := eraseN pid st.live,
      sessions := st.sessions.map (clearHolder pid) }

/-- The operations of a sequential trace against the registry. -/
inductive AMOp where
  | start (resume : Option Str)
  | send (sid : Nat)
  | stop (sid : Nat)
  | exitProc (pid : Nat)
deriving DecidableEq, Repr

/-- One trace step. -/
def stepAM (st : AMState) (op : AMOp) : AMState :=
  match op with
  | .start r => (start_session st r).1
  | .send sid => (send_message st sid).1
  | .stop sid => (stop_session st sid).1
  | .exitProc pid => proc_exit st pid

/-- Run a trace from a state. -/
def runAM (ops : List AMOp) (st : AMState) : AMState :=
  ops.foldl stepAM st

/-- The child currently in a session's holder slot, if any. -/
def activeOf (st : AMState) (sid : Nat) : Option Nat :=
  match lookupS sid st.sessions with
  | some sess => sess.active_child
  | none => none

/-- Number of live child processes associated with (spawned by and not yet
killed or exited for) a session. -/
def liveChildren (st : AMState) (sid : Nat) : Nat :=
  (st.spawned.filter (fun q => q.1 == sid && memN q.2 st.live)).length

/-- Every pid held in a session's holder slot is below the pid counter. -/
def holderBound (st : AMState) : Bool :=
  st.sessions.all (fun kv =>
    match kv.2.active_child with
    | some pid => decide (pid < st.nextPid)
    | none => true)

/-- Registry invariant: distinct session keys; counter bounds for session
ids, spawned pids, live pids and held pids; no duplicate live or spawned
pids; and every live spawned child sits in its session's holder slot. -/
def InvAM (st : AMState) : Prop :=
  (st.sessions.map Prod.fst).Nodup
    ∧ (∀ q ∈ st.spawned, q.2 < st.nextPid)
    ∧ (∀ pid ∈ st.live, pid < st.nextPid)
    ∧ st.live.Nodup
    ∧ (st.spawned.map Prod.snd).Nodup
    ∧ (∀ q ∈ st.spawned, memN q.2 st.live = true → activeOf st q.1 = some q.2)
    ∧ holderBound st = true
    ∧ (∀ kv ∈ st.sessions, kv.1 < st.nextSid)
    ∧ (∀ q ∈ st.spawned, q.1 < st.nextSid)

instance (st : AMState) : Decidable (InvAM st) := by
  unfold InvAM
  infer_instance

-- ===========================================================================
-- Concrete inputs used by witnesses and counterexamples
-- ===========================================================================

/-- Classifier: is an event a `FileChanged`? -/
def isFileChangedB : AgentEvent → Bool
  | .FileChanged _ _ _ => true
  | _ => false

/-- Classifier: is an event an `Error`? -/
def isErrorB : AgentEvent → Bool
  | .Error _ _ _ => true
  | _ => false

/-- A well-formed plugin configuration (shaped like the claude plugin.toml of
the config.rs tests). -/
def sampleConfig : PluginConfig :=
  { plugin :=
      { name := str "claude-code", display_name := str "Claude Code",
        version := str "1.0.0", description := str "CLI plugin",
        author := none, homepage := none, cli_command := str "claude",
        icon := none, color := none },
    capabilities :=
      { session_resume := true, streaming_output := true, tool_use := true,
        multi_turn := true, file_context := true, thinking := true },
    commands :=
      { start_session := [str "claude", str "-c", str "-p", str "Starting session"],
        send_message := [str "claude", str "-p", str "{message}"],
        resume_session := some [str "claude", str "-r", str "{session_id}", str "-p", str "{message}"],
        list_sessions := none, get_history := none, get_version := none },
    output_parsing :=
      { session_id_pattern := none, output_format := str "text",
        session_id_json_path := none, event_patterns := [] } }

/-- `sampleConfig` with an empty CLI command but intact command templates. -/
def sampleConfigNoCli : PluginConfig :=
  { sampleConfig with plugin := { sampleConfig.plugin with cli_command := [] } }

/-- A plugin directory with a valid manifest and no library file. -/
def entryNoLibrary : PluginDirEntry :=
  { has_manifest_file := true, manifest_parses := some sampleConfig,
    has_library_file := false, dynamic_load_ok := false }

/-- A plugin directory with a valid manifest and a library file that fails
dynamic loading (missing symbol / wrong ABI). -/
def entryBadLibrary : PluginDirEntry :=
  { has_manifest_file := true, manifest_parses := some sampleConfig,
    has_library_file := true, dynamic_load_ok := false }

/-- An ordinary history message with no continuation marker. -/
def plainMsg : HistoryMessage :=
  { id := str "m", role := str "user", content := str "hello", timestamp := 0,
    metadata := [] }

/-- A history message whose content contains the continuation marker. -/
def continuedMsg : HistoryMessage :=
  { id := str "m", role := str "assistant",
    content := str "This session is being continued from a previous conversation",
    timestamp := 0, metadata := [] }

/-- 50 marker-free messages. -/
def fiftyPlain : List HistoryMessage := List.replicate 50 plainMsg

/-- 50 messages whose 30th (index 29) contains the continuation marker. -/
def fiftyWithMarker : List HistoryMessage :=
  List.replicate 29 plainMsg ++ continuedMsg :: List.replicate 20 plainMsg

/-- A registry with one session (id 0) and no child, for the stop witness. -/
def oneSessionState : AMState :=
  { sessions := [(0, { claude_session_id := none, pid := none, active_child := none })],
    live := [], spawned := [], nextPid := 0, nextSid := 1 }

/-- Variable map for the substitution witness. -/
def witnessVars : List (Str × Str) :=
  [(str "message", str "fix the \x22bug\x22 in main.rs")]

/-- Template for the substitution witness. -/
def witnessTemplate : List Str :=
  [str "claude", str "-p", str "{message}"]

-- ===========================================================================
-- Theorems
-- ===========================================================================

-- Helper lemmas --------------------------------------------------------------

lemma dropWhile_eq_nil_of_all {p : Char → Bool} :
    ∀ {l : Str}, (∀ c ∈ l, p c = true) → l.dropWhile p = [] := by
  intro l h
  induction l with
  | nil => rfl
  | cons c rest ih =>
    simp only [List.dropWhile_cons]
    rw [h c (List.mem_cons_self _ _)]
    simp only [if_true]
    exact ih (fun x hx => h x (List.mem_cons_of_mem _ hx))

lemma trim_eq_nil_of_all_ws {l : Str} (h : ∀ c ∈ l, isWs c = true) : trim l = [] := by
  unfold trim
  rw [dropWhile_eq_nil_of_all h]
  rfl

/-- C9: a line that is empty or all-whitespace produces no events at all —
the emptiness test is applied to the trimmed line before the unconditional
RawOutput push. -/
theorem whitespace_line_yields_no_events (line : Str) (now : Int)
    (h : ∀ c ∈ line, isWs c = true) : parse_line line now = [] := by
  have hp : perLineEvents now line = [] := by
    unfold perLineEvents
    rw [trim_eq_nil_of_all_ws h]
    simp
  unfold parse_line parse_lines
  simp [hp]

/-- Witness for C9 at the two-character line of a space and a tab. -/
theorem whitespace_line_yields_no_events_witness :
    parse_line (str " \t") 0 = [] :=
  whitespace_line_yields_no_events (str " \t") 0 (by decide)

-- C4: validation of the config-driven adapter -------------------------------

/-- C4 counterexample: a config whose start and send templates are both
non-empty but whose CLI command is empty fails `GenericCliPlugin::new`, so
non-emptiness of the two templates alone does not suffice. -/
theorem new_fails_despite_nonempty_templates :
    sampleConfigNoCli.commands.start_session.isEmpty = false
      ∧ sampleConfigNoCli.commands.send_message.isEmpty = false
      ∧ (GenericCliPlugin.new sampleConfigNoCli).isOk = false := by
  decide

/-- C4 amended: instantiation succeeds iff the CLI command *and* both the
start and send command templates are non-empty. -/
theorem new_ok_iff_cli_and_templates_nonempty (c : PluginConfig) :
    (GenericCliPlugin.new c).isOk = true
      ↔ (c.plugin.cli_command.isEmpty = false
          ∧ c.commands.start_session.isEmpty = false
          ∧ c.commands.send_message.isEmpty = false) := by
  unfold GenericCliPlugin.new PluginConfig.validate
  cases h1 : c.plugin.cli_command.isEmpty <;>
    cases h2 : c.commands.start_session.isEmpty <;>
      cases h3 : c.commands.send_message.isEmpty <;>
        simp [h1, h2, h3, Except.isOk, Except.toBool]

/-- Witness for C4 (amended) at `sampleConfig`. -/
theorem new_ok_iff_cli_and_templates_nonempty_witness :
    (GenericCliPlugin.new sampleConfig).isOk = true :=
  (new_ok_iff_cli_and_templates_nonempty sampleConfig).mpr (by decide)

-- C5: discovery fallback ----------------------------------------------------

/-- C5 counterexample: a plugin directory with a valid manifest (it parses
and `GenericCliPlugin::new` accepts it) but no library file is dropped by
`load_plugin_manifest` during discovery, so no config-driven fallback is
constructed and the plugin is not available at all. -/
theorem manifest_without_library_not_loaded :
    (GenericCliPlugin.new sampleConfig).isOk = true
      ∧ discover_and_load [entryNoLibrary] = [] := by
  decide

/-- C5 amended: the config-driven fallback applies only when a library file
is present but fails dynamic loading (missing symbol, wrong ABI, null
constructor); a manifest directory without any platform library file is
skipped during discovery and yields nothing. -/
theorem fallback_requires_library_file (e : PluginDirEntry) (c : PluginConfig)
    (p : GenericCliPlugin) (hm : e.manifest_parses = some c) :
    (e.has_manifest_file = true → e.has_library_file = true →
        e.dynamic_load_ok = false → GenericCliPlugin.new c = Except.ok p →
        discover_and_load [e] = [LoadedPlugin.configBased p])
      ∧ (e.has_library_file = false → discover_and_load [e] = []) := by
  constructor
  · intro h1 h2 h3 h4
    simp [discover_and_load, discover_plugins, load_plugin_manifest, optList,
      h1, h2, h3, h4, hm]
  · intro h2
    simp [discover_and_load, discover_plugins, load_plugin_manifest, optList,
      h2, hm]

/-- Witness for C5 (amended): with a library file present but unloadable the
fallback adapter is registered; with none the directory yields nothing. -/
theorem fallback_requires_library_file_witness :
    discover_and_load [entryBadLibrary]
        = [LoadedPlugin.configBased { config := sampleConfig }]
      ∧ discover_and_load [entryNoLibrary] = [] :=
  ⟨(fallback_requires_library_file entryBadLibrary sampleConfig
      { config := sampleConfig } (by decide)).1 (by decide) (by decide) (by decide) (by rfl),
    (fallback_requires_library_file entryNoLibrary sampleConfig
      { config := sampleConfig } (by decide)).2 (by decide)⟩

-- C8: stop on an unknown session --------------------------------------------

/-- C8: `stop_session` on a session id absent from the registry returns the
"Session not found" error and leaves the registry state (hence its size and
every stored entry) unchanged. -/
theorem stop_unknown_session_not_found (st : AMState) (sid : Nat)
    (h : lookupS sid st.sessions = none) :
    stop_session st sid
      = (st, Except.error (str "Session not found: " ++ natToStr sid)) := by
  unfold stop_session kill_active_process
  rw [h]
  simp [h]

/-- Witness for C8: stopping session 5 in a one-session registry. -/
theorem stop_unknown_session_not_found_witness :
    stop_session oneSessionState 5
      = (oneSessionState, Except.error (str "Session not found: " ++ natToStr 5)) :=
  stop_unknown_session_not_found oneSessionState 5 (by decide)

-- C10: replace_variables ------------------------------------------------------

lemma replaceAllF_no_occurs (pat rep : Str) :
    ∀ (fuel : Nat) (s : Str), s.length ≤ fuel → occursIn pat s = false →
      replaceAllF pat rep fuel s = s := by
  intro fuel
  induction fuel with
  | zero =>
    intro s _ _
    cases s with
    | nil => rfl
    | cons c rest => rfl
  | succ n ih =>
    intro s hlen hocc
    cases s with
    | nil => rfl
    | cons c rest =>
      simp only [occursIn, Bool.or_eq_false_iff] at hocc
      simp only [replaceAllF, hocc.1, Bool.and_false, Bool.false_eq_true, if_false]
      have : rest.length ≤ n := by
        simp only [List.length_cons] at hlen
        omega
      rw [ih rest this hocc.2]

lemma replaceAll_no_occurs (pat rep s : Str) (h : occursIn pat s = false) :
    replaceAll pat rep s = s :=
  replaceAllF_no_occurs pat rep s.length s (Nat.le_refl _) h

lemma substArg_no_placeholder (vars : List (Str × Str)) (arg : Str)
    (h : ∀ kv ∈ vars, occursIn (placeholder kv.1) arg = false) :
    substArg vars arg = arg := by
  induction vars with
  | nil => rfl
  | cons kv rest ih =>
    unfold substArg
    simp only [List.foldl_cons]
    rw [replaceAll_no_occurs _ _ _ (h kv (List.mem_cons_self _ _))]
    exact ih (fun kv' h' => h kv' (List.mem_cons_of_mem _ h'))

/-- C10: substitution maps the template element-wise — the output has exactly
the template's length, entry `i` of the output is entry `i` of the template
with every `{key}` occurrence replaced (the fold of `str::replace` over the
variable map), an argument containing no placeholder is returned unchanged,
and an argument is never split into several (it stays one entry whatever the
values contain). -/
theorem replace_variables_elementwise (vars : List (Str × Str)) (template : List Str) :
    (replace_variables vars template).length = template.length
      ∧ (∀ i : Nat, (replace_variables vars template)[i]?
            = template[i]?.map (substArg vars))
      ∧ (∀ arg ∈ template,
          (∀ kv ∈ vars, occursIn (placeholder kv.1) arg = false) →
            substArg vars arg = arg) := by
  refine ⟨by simp [replace_variables], fun i => ?_, fun arg _ h => substArg_no_placeholder vars arg h⟩
  simp [replace_variables, List.getElem?_map]

/-- Witness for C10: a message value containing spaces and quotes is
substituted into the send template as a single argument, and a
placeholder-free argument is untouched. -/
theorem replace_variables_elementwise_witness :
    substArg witnessVars (str "claude") = str "claude"
      ∧ replace_variables witnessVars witnessTemplate
          = [str "claude", str "-p", str "fix the \x22bug\x22 in main.rs"] :=
  ⟨(replace_variables_elementwise witnessVars witnessTemplate).2.2
      (str "claude") (by decide) (by decide),
    by decide⟩

-- C1/C2: history pagination ---------------------------------------------------

lemma rposition_eq_none {α : Type} (p : α → Bool) :
    ∀ l : List α, (∀ x ∈ l, p x = false) → rposition p l = none := by
  intro l h
  induction l with
  | nil => rfl
  | cons a rest ih =>
    unfold rposition
    rw [ih (fun x hx => h x (List.mem_cons_of_mem _ hx))]
    simp [h a (List.mem_cons_self _ _)]

lemma rposition_append {α : Type} (p : α → Bool) (y : α) (hy : p y = true) :
    ∀ (xs zs : List α), (∀ z ∈ zs, p z = false) →
      rposition p (xs ++ y :: zs) = some xs.length := by
  intro xs zs hz
  induction xs with
  | nil =>
    simp only [List.nil_append]
    unfold rposition
    rw [rposition_eq_none p zs hz, hy]
    rfl
  | cons x rest ih =>
    simp only [List.cons_append]
    unfold rposition
    rw [ih]
    rfl

lemma paginate_no_marker (msgs : List HistoryMessage) (offset limit : Nat)
    (hr : rposition is_continuation msgs = none) :
    get_conversation_history_paginated msgs offset limit =
      { messages := ((msgs.drop (msgs.length - limit)).reverse.drop
            (min offset (msgs.drop (msgs.length - limit)).length)).take
            (min (offset + limit) (msgs.drop (msgs.length - limit)).length
              - min offset (msgs.drop (msgs.length - limit)).length),
        total_count := (msgs.drop (msgs.length - limit)).length,
        has_more := decide (min (offset + limit) (msgs.drop (msgs.length - limit)).length
          < (msgs.drop (msgs.length - limit)).length),
        offset := offset } := by
  unfold get_conversation_history_paginated
  rw [hr]

lemma paginate_with_marker (msgs : List HistoryMessage) (offset limit i : Nat)
    (hr : rposition is_continuation msgs = some i) :
    get_conversation_history_paginated msgs offset limit =
      { messages := (msgs.drop i).reverse, total_count := (msgs.drop i).length,
        has_more := false, offset := offset } := by
  unfold get_conversation_history_paginated
  rw [hr]

/-- C1 counterexample: on 50 marker-free messages, `offset=0, limit=10`
returns `has_more = false` (the claim says `true`), and `offset=10,
limit=10` returns no messages (the claim says the next older 10): the code
first narrows the history to the last `limit` messages and only then applies
`offset`. -/
theorem fifty_no_marker_pagination_counterexample :
    (get_conversation_history_paginated fiftyPlain 0 10).has_more = false
      ∧ (get_conversation_history_paginated fiftyPlain 10 10).messages = [] := by
  decide

/-- C1 amended: with no continuation marker, `offset=0` returns the most
recent `limit` messages most-recent-first, but `has_more` is always `false`
(for every offset), and any `offset ≥ limit` returns an empty page — the
pre-slice to the last `limit` messages caps `total_count` at `limit`, so
pagination can never reach older messages. -/
theorem no_marker_pagination (msgs : List HistoryMessage) (limit offset : Nat)
    (hnm : ∀ m ∈ msgs, is_continuation m = false) (hlen : limit ≤ msgs.length) :
    (get_conversation_history_paginated msgs 0 limit).messages
        = (msgs.drop (msgs.length - limit)).reverse
      ∧ (get_conversation_history_paginated msgs offset limit).has_more = false
      ∧ (limit ≤ offset →
          (get_conversation_history_paginated msgs offset limit).messages = []) := by
  have hr : rposition is_continuation msgs = none := rposition_eq_none _ msgs hnm
  have ht : (msgs.drop (msgs.length - limit)).length = limit := by
    rw [List.length_drop]
    omega
  have htr : (msgs.drop (msgs.length - limit)).reverse.length = limit := by
    rw [List.length_reverse]
    exact ht
  refine ⟨?_, ?_, ?_⟩
  · rw [paginate_no_marker msgs 0 limit hr]
    simp only [ht]
    simp only [Nat.min_self, Nat.zero_add, Nat.min_eq_right (Nat.le_refl limit),
      Nat.zero_min, List.drop_zero, Nat.sub_zero]
    exact List.take_of_length_le (le_of_eq htr)
  · rw [paginate_no_marker msgs offset limit hr]
    simp only [ht]
    simp only [decide_eq_false_iff_not, not_lt]
    omega
  · intro hoff
    rw [paginate_no_marker msgs offset limit hr]
    simp only [ht]
    have hstart : min offset limit = limit := Nat.min_eq_right (le_trans hoff (Nat.le_refl _))
    rw [hstart]
    rw [List.drop_eq_nil_of_le (le_of_eq htr)]
    simp

/-- Witness for C1 (amended) on the 50 marker-free messages. -/
theorem no_marker_pagination_witness :
    (get_conversation_history_paginated fiftyPlain 0 10).messages
        = (fiftyPlain.drop 40).reverse
      ∧ (get_conversation_history_paginated fiftyPlain 10 10).has_more = false
      ∧ (get_conversation_history_paginated fiftyPlain 10 10).messages = [] :=
  ⟨(no_marker_pagination fiftyPlain 10 0 (by decide) (by decide)).1,
    (no_marker_pagination fiftyPlain 10 10 (by decide) (by decide)).2.1,
    (no_marker_pagination fiftyPlain 10 10 (by decide) (by decide)).2.2 (by decide)⟩

/-- C2: with the 30th of 50 messages containing "This session is being
continued" and no later message containing a continuation marker, pagination
returns messages 30..50 — 21 items, most-recent-first — with
`has_more = false`, for every requested offset and limit. -/
theorem continuation_pagination (pre post : List HistoryMessage) (m : HistoryMessage)
    (offset limit : Nat) (_hpre : pre.length = 29) (hpost : post.length = 20)
    (hm : containsSub (str "This session is being continued") m.content = true)
    (hlater : ∀ x ∈ post, is_continuation x = false) :
    (get_conversation_history_paginated (pre ++ m :: post) offset limit).messages
        = (m :: post).reverse
      ∧ (get_conversation_history_paginated (pre ++ m :: post) offset limit).messages.length = 21
      ∧ (get_conversation_history_paginated (pre ++ m :: post) offset limit).has_more = false := by
  have hmc : is_continuation m = true := by
    unfold is_continuation
    rw [hm]
    rfl
  have hr : rposition is_continuation (pre ++ m :: post) = some pre.length :=
    rposition_append _ m hmc pre post hlater
  have hd : (pre ++ m :: post).drop pre.length = m :: post := List.drop_left pre (m :: post)
  rw [paginate_with_marker _ offset limit _ hr]
  refine ⟨by rw [hd], ?_, rfl⟩
  rw [hd]
  simp [hpost]

/-- Witness for C2 on a concrete 50-message history; the returned page is
the same for limits 10 and 7. -/
theorem continuation_pagination_witness :
    (get_conversation_history_paginated fiftyWithMarker 0 10).messages.length = 21
      ∧ (get_conversation_history_paginated fiftyWithMarker 0 10).has_more = false
      ∧ (get_conversation_history_paginated fiftyWithMarker 0 10).messages
          = (get_conversation_history_paginated fiftyWithMarker 0 7).messages :=
  ⟨(continuation_pagination (List.replicate 29 plainMsg) (List.replicate 20 plainMsg)
      continuedMsg 0 10 (by decide) (by decide) (by decide) (by decide)).2.1,
    (continuation_pagination (List.replicate 29 plainMsg) (List.replicate 20 plainMsg)
      continuedMsg 0 10 (by decide) (by decide) (by decide) (by decide)).2.2,
    ((continuation_pagination (List.replicate 29 plainMsg) (List.replicate 20 plainMsg)
      continuedMsg 0 10 (by decide) (by decide) (by decide) (by decide)).1).trans
      ((continuation_pagination (List.replicate 29 plainMsg) (List.replicate 20 plainMsg)
        continuedMsg 0 7 (by decide) (by decide) (by decide) (by decide)).1).symm⟩

-- C6/C7: detector images and event tallies ------------------------------------

lemma parse_file_change_shape (l : Str) (t : Int) (e : AgentEvent)
    (h : parse_file_change l t = some e) : isErrorB e = false := by
  unfold parse_file_change at h
  repeat' split at h
  all_goals first
    | exact Option.noConfusion h
    | (injection h with h; subst h; rfl)

lemma parse_test_result_shape (l : Str) (t : Int) (e : AgentEvent)
    (h : parse_test_result l t = some e) :
    isFileChangedB e = false ∧ isErrorB e = false := by
  unfold parse_test_result at h
  repeat' split at h
  all_goals first
    | exact Option.noConfusion h
    | (injection h with h; subst h; exact ⟨rfl, rfl⟩)

lemma parse_command_execution_shape (l : Str) (t : Int) (e : AgentEvent)
    (h : parse_command_execution l t = some e) :
    isFileChangedB e = false ∧ isErrorB e = false := by
  unfold parse_command_execution at h
  repeat' split at h
  all_goals first
    | exact Option.noConfusion h
    | (injection h with h; subst h; exact ⟨rfl, rfl⟩)

lemma parse_error_or_warning_shape (l : Str) (t : Int) (e : AgentEvent)
    (h : parse_error_or_warning l t = some e) : isFileChangedB e = false := by
  unfold parse_error_or_warning at h
  repeat' split at h
  all_goals try (dsimp only [] at h)
  repeat' split at h
  all_goals first
    | exact Option.noConfusion h
    | (injection h with h; subst h; rfl)

lemma parse_task_completion_shape (l : Str) (t : Int) (e : AgentEvent)
    (h : parse_task_completion l t = some e) :
    isFileChangedB e = false ∧ isErrorB e = false := by
  unfold parse_task_completion at h
  repeat' split at h
  all_goals first
    | exact Option.noConfusion h
    | (injection h with h; subst h; exact ⟨rfl, rfl⟩)

lemma parse_task_created_shape (l : Str) (t : Int) (e : AgentEvent)
    (h : parse_task_created l t = some e) :
    isFileChangedB e = false ∧ isErrorB e = false := by
  unfold parse_task_created at h
  repeat' split at h
  all_goals first
    | exact Option.noConfusion h
    | (injection h with h; subst h; exact ⟨rfl, rfl⟩)

lemma filter_optList_eq_nil {p : AgentEvent → Bool} {o : Option AgentEvent}
    (h : ∀ e, o = some e → p e = false) : (optList o).filter p = [] := by
  cases ho : o with
  | none => rfl
  | some e => simp [optList, List.filter_cons, h e ho]

lemma perLine_filter_fc (now : Int) (line : Str) :
    ((perLineEvents now line).filter isFileChangedB).length ≤ 1 := by
  unfold perLineEvents
  by_cases h : (trim line).isEmpty = true
  · simp [h]
  · rw [Bool.not_eq_true] at h
    simp only [h, Bool.false_eq_true, if_false]
    have hB : (optList (parse_test_result (trim line) now)).filter isFileChangedB = [] :=
      filter_optList_eq_nil (fun e he => (parse_test_result_shape _ _ _ he).1)
    have hC : (optList (parse_command_execution (trim line) now)).filter isFileChangedB = [] :=
      filter_optList_eq_nil (fun e he => (parse_command_execution_shape _ _ _ he).1)
    have hD : (optList (parse_error_or_warning (trim line) now)).filter isFileChangedB = [] :=
      filter_optList_eq_nil (fun e he => parse_error_or_warning_shape _ _ _ he)
    have hE : (optList (parse_task_completion (trim line) now)).filter isFileChangedB = [] :=
      filter_optList_eq_nil (fun e he => (parse_task_completion_shape _ _ _ he).1)
    have hF : (optList (parse_task_created (trim line) now)).filter isFileChangedB = [] :=
      filter_optList_eq_nil (fun e he => (parse_task_created_shape _ _ _ he).1)
    have hG : ((if is_thinking (trim line) = true
          then [AgentEvent.Thinking (some (trim line)) now] else []).filter isFileChangedB) = [] := by
      split <;> rfl
    have hH : ((if is_input_required (trim line) = true
          then [AgentEvent.InputRequired (trim line) now] else []).filter isFileChangedB) = [] := by
      split <;> rfl
    have hA : ((optList (parse_file_change (trim line) now)).filter isFileChangedB).length ≤ 1 := by
      cases hp : parse_file_change (trim line) now with
      | none => simp [optList]
      | some e =>
        calc ((optList (some e)).filter isFileChangedB).length
            ≤ (optList (some e)).length := List.length_filter_le _ _
          _ = 1 := rfl
    simp only [List.filter_cons, List.filter_append, hB, hC, hD, hE, hF, hG, hH,
      List.append_nil, List.nil_append]
    simpa [isFileChangedB] using hA

/-- C6 amended: a single line never yields more than one `FileChanged` event:
`parse_file_change` returns on the first matching verb family (in the order
created, modified, edited, wrote, deleted), and no other detector produces a
`FileChanged`. -/
theorem at_most_one_file_changed_per_line (line : Str) (now : Int) :
    ((parse_line line now).filter isFileChangedB).length ≤ 1 := by
  have : parse_line line now = perLineEvents now line := by
    simp [parse_line, parse_lines]
  rw [this]
  exact perLine_filter_fc now line

/-- C6 counterexample: on a line matched by both the created family and the
modified family, `parse_line` emits exactly one `FileChanged` event (the
created one), not one per matching family. -/
theorem overlapping_families_single_event :
    (searchCapture fileCreatedAt (trim (str "Created: a.txt updated: b.txt"))).isSome = true
      ∧ (searchCapture fileModifiedAt (trim (str "Created: a.txt updated: b.txt"))).isSome = true
      ∧ ((parse_line (str "Created: a.txt updated: b.txt") 0).filter isFileChangedB)
          = [AgentEvent.FileChanged (str "a.txt") FileChangeType.Created 0] := by
  decide

/-- C7: error classification is tiered — a line whose `fatal:` pattern
matches is classified Fatal regardless of the `error:` pattern; with no
fatal match, an `error:` match is classified Error; with none of the
explicit fatal/error/warning patterns matching, a line containing
"failed", "cannot" or "unable to" (lower-cased) is still an Error of
severity Error; and the Error events of `parse_line` are exactly those of
`parse_error_or_warning` on the trimmed line. -/
theorem error_classification_tiered (line : Str) (now : Int) :
    (∀ m, searchCapture (altColonWsRest [str "fatal"]) line = some m →
        parse_error_or_warning line now
          = some (AgentEvent.Error (trim m) ErrorSeverity.Fatal now))
      ∧ (searchCapture (altColonWsRest [str "fatal"]) line = none →
          ∀ m, searchCapture (altColonWsRest [str "error"]) line = some m →
            parse_error_or_warning line now
              = some (AgentEvent.Error (trim m) ErrorSeverity.Error now))
      ∧ (searchCapture (altColonWsRest [str "fatal"]) line = none →
          searchCapture (altColonWsRest [str "error"]) line = none →
          searchCapture (altColonWsRest [str "warning"]) line = none →
          (containsSub (str "failed") (toLowerStr line)
            || containsSub (str "cannot") (toLowerStr line)
            || containsSub (str "unable to") (toLowerStr line)) = true →
          parse_error_or_warning line now
            = some (AgentEvent.Error line ErrorSeverity.Error now))
      ∧ ((parse_line line now).filter isErrorB
          = (optList (parse_error_or_warning (trim line) now)).filter isErrorB) := by
  refine ⟨?_, ?_, ?_, ?_⟩
  · intro m hm
    unfold parse_error_or_warning
    rw [hm]
  · intro hf m hm
    unfold parse_error_or_warning
    rw [hf, hm]
  · intro hf he hw hc
    unfold parse_error_or_warning
    rw [hf, he, hw]
    simp only [hc, if_true]
  · have hl : parse_line line now = perLineEvents now line := by
      simp [parse_line, parse_lines]
    rw [hl]
    unfold perLineEvents
    by_cases h : (trim line).isEmpty = true
    · have : parse_error_or_warning (trim line) now = none := by
        have ht : trim line = [] := by
          cases hc : trim line with
          | nil => rfl
          | cons a l => rw [hc] at h; simp [List.isEmpty] at h
        rw [ht]
        rfl
      simp [h, this, optList]
    · simp only [h, if_false]
      have hA : (optList (parse_file_change (trim line) now)).filter isErrorB = [] :=
        filter_optList_eq_nil (fun e he => parse_file_change_shape _ _ _ he)
      have hB : (optList (parse_test_result (trim line) now)).filter isErrorB = [] :=
        filter_optList_eq_nil (fun e he => (parse_test_result_shape _ _ _ he).2)
      have hC : (optList (parse_command_execution (trim line) now)).filter isErrorB = [] :=
        filter_optList_eq_nil (fun e he => (parse_command_execution_shape _ _ _ he).2)
      have hE : (optList (parse_task_completion (trim line) now)).filter isErrorB = [] :=
        filter_optList_eq_nil (fun e he => (parse_task_completion_shape _ _ _ he).2)
      have hF : (optList (parse_task_created (trim line) now)).filter isErrorB = [] :=
        filter_optList_eq_nil (fun e he => (parse_task_created_shape _ _ _ he).2)
      have hG : ((if is_thinking (trim line) = true
            then [AgentEvent.Thinking (some (trim line)) now] else []).filter isErrorB) = [] := by
        split <;> rfl
      have hH : ((if is_input_required (trim line) = true
            then [AgentEvent.InputRequired (trim line) now] else []).filter isErrorB) = [] := by
        split <;> rfl
      simp [List.filter_cons, List.filter_append, hA, hB, hC, hE, hF, hG, hH, isErrorB]

/-- Witness for C7 at three concrete lines, one per tier. -/
theorem error_classification_tiered_witness :
    parse_error_or_warning (str "fatal: error: x") 0
        = some (AgentEvent.Error (trim (str "error: x")) ErrorSeverity.Fatal 0)
      ∧ parse_error_or_warning (str "Error: File not found") 0
          = some (AgentEvent.Error (trim (str "File not found")) ErrorSeverity.Error 0)
      ∧ parse_error_or_warning (str "cannot open file") 0
          = some (AgentEvent.Error (str "cannot open file") ErrorSeverity.Error 0) :=
  ⟨(error_classification_tiered (str "fatal: error: x") 0).1 (str "error: x") (by decide),
    (error_classification_tiered (str "Error: File not found") 0).2.1 (by decide)
      (str "File not found") (by decide),
    (error_classification_tiered (str "cannot open file") 0).2.2.1 (by decide) (by decide)
      (by decide) (by decide)⟩

-- C3: registry invariant ------------------------------------------------------

lemma memN_iff (a : Nat) : ∀ l : List Nat, memN a l = true ↔ a ∈ l := by
  intro l
  induction l with
  | nil => simp [memN]
  | cons b rest ih => simp [memN, ih, beq_iff_eq, List.mem_cons]

lemma eraseN_sublist (a : Nat) : ∀ l : List Nat, (eraseN a l).Sublist l := by
  intro l
  induction l with
  | nil => simp [eraseN]
  | cons b rest ih =>
    unfold eraseN
    by_cases hb : (b == a) = true
    · rw [if_pos hb]
      exact List.sublist_cons_self b rest
    · rw [if_neg hb]
      exact ih.cons₂ b

lemma nodup_eraseN (a : Nat) {l : List Nat} (h : l.Nodup) : (eraseN a l).Nodup :=
  h.sublist (eraseN_sublist a l)

lemma mem_of_mem_eraseN {a b : Nat} {l : List Nat} (h : b ∈ eraseN a l) : b ∈ l :=
  (eraseN_sublist a l).subset h

lemma memN_eraseN_self {l : List Nat} (h : l.Nodup) (a : Nat) :
    memN a (eraseN a l) = false := by
  induction l with
  | nil => rfl
  | cons b rest ih =>
    unfold eraseN
    by_cases hb : (b == a) = true
    · rw [if_pos hb]
      have hba : b = a := by simpa [beq_iff_eq] using hb
      subst hba
      rw [← Bool.not_eq_true, memN_iff]
      exact (List.nodup_cons.mp h).1
    · rw [if_neg hb]
      unfold memN
      have hab : (a == b) = false := by
        rw [beq_eq_false_iff_ne]
        intro hx
        exact hb (by rw [beq_iff_eq]; omega)
      rw [hab, Bool.false_or]
      exact ih (List.nodup_cons.mp h).2

lemma map_fst_updateS (sid : Nat) (f : AMSession → AMSession) :
    ∀ l, (updateS sid f l).map Prod.fst = l.map Prod.fst := by
  intro l
  induction l with
  | nil => rfl
  | cons kv rest ih =>
    obtain ⟨k, v⟩ := kv
    unfold updateS
    by_cases hk : k = sid
    · rw [if_pos hk]
      simp
    · rw [if_neg hk]
      simp [ih]

lemma lookupS_updateS_self (sid : Nat) (f : AMSession → AMSession) :
    ∀ l, lookupS sid (updateS sid f l) = (lookupS sid l).map f := by
  intro l
  induction l with
  | nil => rfl
  | cons kv rest ih =>
    obtain ⟨k, v⟩ := kv
    unfold updateS
    by_cases hk : k = sid
    · rw [if_pos hk]
      unfold lookupS
      rw [if_pos hk, if_pos hk]
      rfl
    · rw [if_neg hk]
      unfold lookupS
      rw [if_neg hk, if_neg hk]
      exact ih

lemma lookupS_updateS_ne {k sid : Nat} (h : k ≠ sid) (f : AMSession → AMSession) :
    ∀ l, lookupS k (updateS sid f l) = lookupS k l := by
  intro l
  induction l with
  | nil => rfl
  | cons kv rest ih =>
    obtain ⟨k', v⟩ := kv
    unfold updateS
    by_cases hk : k' = sid
    · rw [if_pos hk]
      unfold lookupS
      have : k' ≠ k := by omega
      rw [if_neg this, if_neg this]
    · rw [if_neg hk]
      unfold lookupS
      by_cases hkk : k' = k
      · rw [if_pos hkk, if_pos hkk]
      · rw [if_neg hkk, if_neg hkk]
        exact ih

lemma mem_updateS {sid : Nat} {f : AMSession → AMSession} :
    ∀ {l kv}, kv ∈ updateS sid f l → kv ∈ l ∨ ∃ v, (kv.1, v) ∈ l ∧ kv.2 = f v := by
  intro l
  induction l with
  | nil => intro kv h; exact absurd h (by simp [updateS])
  | cons kw rest ih =>
    obtain ⟨k, w⟩ := kw
    intro kv h
    unfold updateS at h
    by_cases hk : k = sid
    · rw [if_pos hk] at h
      rcases List.mem_cons.mp h with h1 | h1
      · subst h1
        exact Or.inr ⟨w, by simp, by simp⟩
      · left
        exact List.mem_cons_of_mem _ h1
    · rw [if_neg hk] at h
      rcases List.mem_cons.mp h with h1 | h1
      · left
        rw [h1]
        exact List.mem_cons_self _ _
      · rcases ih h1 with h2 | ⟨v, hv, he⟩
        · exact Or.inl (List.mem_cons_of_mem _ h2)
        · exact Or.inr ⟨v, List.mem_cons_of_mem _ hv, he⟩

lemma removeS_sublist (sid : Nat) : ∀ l, (removeS sid l).Sublist l := by
  intro l
  induction l with
  | nil => simp [removeS]
  | cons kv rest ih =>
    obtain ⟨k, v⟩ := kv
    unfold removeS
    by_cases hk : k = sid
    · rw [if_pos hk]
      exact List.sublist_cons_self _ rest
    · rw [if_neg hk]
      exact ih.cons₂ _

lemma lookupS_removeS_ne {k sid : Nat} (h : k ≠ sid) :
    ∀ l, lookupS k (removeS sid l) = lookupS k l := by
  intro l
  induction l with
  | nil => rfl
  | cons kv rest ih =>
    obtain ⟨k', v⟩ := kv
    by_cases hk : k' = sid
    · have hkk : k' ≠ k := by omega
      simp [removeS, lookupS, hk, hkk, Ne.symm h]
    · by_cases hkk : k' = k <;> simp [removeS, lookupS, hk, hkk, h, Ne.symm h, ih]

lemma lookupS_mem {sid : Nat} {v : AMSession} :
    ∀ {l}, lookupS sid l = some v → (sid, v) ∈ l := by
  intro l
  induction l with
  | nil => intro h; exact Option.noConfusion h
  | cons kw rest ih =>
    obtain ⟨k, w⟩ := kw
    intro h
    unfold lookupS at h
    by_cases hk : k = sid
    · rw [if_pos hk] at h
      injection h with h
      subst hk h
      exact List.mem_cons_self _ _
    · rw [if_neg hk] at h
      exact List.mem_cons_of_mem _ (ih h)

lemma lookupS_eq_none_of_not_mem {sid : Nat} :
    ∀ {l}, sid ∉ l.map Prod.fst → lookupS sid l = none := by
  intro l
  induction l with
  | nil => intro _; rfl
  | cons kw rest ih =>
    obtain ⟨k, w⟩ := kw
    intro h
    simp only [List.map_cons, List.mem_cons] at h
    push_neg at h
    unfold lookupS
    rw [if_neg (fun he => h.1 he.symm)]
    exact ih h.2

lemma clearHolder_fst (pid : Nat) (kv : Nat × AMSession) : (clearHolder pid kv).1 = kv.1 := by
  unfold clearHolder
  split <;> rfl

lemma map_fst_map_clearHolder (pid : Nat) (l : List (Nat × AMSession)) :
    (l.map (clearHolder pid)).map Prod.fst = l.map Prod.fst := by
  rw [List.map_map]
  exact List.map_congr_left (fun kv _ => clearHolder_fst pid kv)

lemma lookupS_map_clearHolder (pid k : Nat) :
    ∀ l, lookupS k (l.map (clearHolder pid))
      = (lookupS k l).map (fun v =>
          if v.active_child = some pid then { v with active_child := none } else v) := by
  intro l
  induction l with
  | nil => rfl
  | cons kw rest ih =>
    obtain ⟨k', v⟩ := kw
    simp only [List.map_cons]
    by_cases hv : v.active_child = some pid
    · rw [show clearHolder pid (k', v) = (k', { v with active_child := none }) from by
        unfold clearHolder; rw [if_pos hv]]
      by_cases hk : k' = k <;> simp [lookupS, hk, ih, hv]
    · rw [show clearHolder pid (k', v) = (k', v) from by
        unfold clearHolder; rw [if_neg hv]]
      by_cases hk : k' = k <;> simp [lookupS, hk, ih, hv]

lemma length_le_one_of_all_eq {α : Type} :
    ∀ (l : List α), l.Nodup → (∀ x ∈ l, ∀ y ∈ l, x = y) → l.length ≤ 1 := by
  intro l hnd hall
  match l with
  | [] => simp
  | [x] => simp
  | x :: y :: rest =>
    exfalso
    have hxy : x = y := hall x (by simp) y (by simp)
    exact (List.nodup_cons.mp hnd).1 (hxy ▸ List.mem_cons_self y rest)

lemma liveChildren_le_one (st : AMState) (sid : Nat) (inv : InvAM st) :
    liveChildren st sid ≤ 1 := by
  obtain ⟨i0, i1, i2, i3, i4, i5, i7, i8, i9⟩ := inv
  unfold liveChildren
  have hnd : ((st.spawned.filter
      (fun q => q.1 == sid && memN q.2 st.live)).map Prod.snd).Nodup :=
    i4.sublist ((st.spawned.filter_sublist).map Prod.snd)
  have hall : ∀ x ∈ (st.spawned.filter
        (fun q => q.1 == sid && memN q.2 st.live)).map Prod.snd,
      ∀ y ∈ (st.spawned.filter
        (fun q => q.1 == sid && memN q.2 st.live)).map Prod.snd, x = y := by
    intro x hx y hy
    obtain ⟨qx, hqx, rfl⟩ := List.mem_map.mp hx
    obtain ⟨qy, hqy, rfl⟩ := List.mem_map.mp hy
    obtain ⟨hqx1, hqx2⟩ := List.mem_filter.mp hqx
    obtain ⟨hqy1, hqy2⟩ := List.mem_filter.mp hqy
    simp only [Bool.and_eq_true, beq_iff_eq] at hqx2 hqy2
    have hx5 := i5 qx hqx1 hqx2.2
    have hy5 := i5 qy hqy1 hqy2.2
    rw [hqx2.1] at hx5
    rw [hqy2.1] at hy5
    rw [hx5] at hy5
    exact Option.some.inj hy5
  calc (st.spawned.filter (fun q => q.1 == sid && memN q.2 st.live)).length
      = ((st.spawned.filter
          (fun q => q.1 == sid && memN q.2 st.live)).map Prod.snd).length :=
        (List.length_map _ _).symm
    _ ≤ 1 := length_le_one_of_all_eq _ hnd hall

lemma activeOf_kill_self (st : AMState) (sid : Nat) :
    activeOf (kill_active_process st sid) sid = none := by
  unfold kill_active_process activeOf
  cases hl : lookupS sid st.sessions with
  | none => simp [hl]
  | some sess =>
    cases ha : sess.active_child with
    | none => simp [hl, ha]
    | some pid =>
      simp only [hl, ha]
      rw [lookupS_updateS_self, hl]
      rfl

lemma kill_eq_of_none {st : AMState} {sid : Nat}
    (hl : lookupS sid st.sessions = none) : kill_active_process st sid = st := by
  unfold kill_active_process
  rw [hl]

lemma kill_eq_of_no_child {st : AMState} {sid : Nat} {sess : AMSession}
    (hl : lookupS sid st.sessions = some sess) (ha : sess.active_child = none) :
    kill_active_process st sid = st := by
  unfold kill_active_process
  rw [hl]
  dsimp only
  rw [ha]

lemma kill_eq_of_child {st : AMState} {sid : Nat} {sess : AMSession} {pid : Nat}
    (hl : lookupS sid st.sessions = some sess) (ha : sess.active_child = some pid) :
    kill_active_process st sid =
      { st with
          live := eraseN pid st.live,
          sessions := updateS sid (fun s => { s with active_child := none }) st.sessions } := by
  unfold kill_active_process
  rw [hl]
  dsimp only
  rw [ha]

lemma inv_kill (st : AMState) (sid : Nat) (inv : InvAM st) :
    InvAM (kill_active_process st sid) := by
  cases hl : lookupS sid st.sessions with
  | none => rw [kill_eq_of_none hl]; exact inv
  | some sess =>
    cases ha : sess.active_child with
    | none => rw [kill_eq_of_no_child hl ha]; exact inv
    | some pid =>
      rw [kill_eq_of_child hl ha]
      obtain ⟨i0, i1, i2, i3, i4, i5, i7, i8, i9⟩ := inv
      refine ⟨?_, i1, ?_, ?_, i4, ?_, ?_, ?_, i9⟩
      · rw [map_fst_updateS]
        exact i0
      · intro p hp
        exact i2 p (mem_of_mem_eraseN hp)
      · exact nodup_eraseN pid i3
      · intro q hq hmem
        have hql : q.2 ∈ eraseN pid st.live := (memN_iff _ _).mp hmem
        have hqlive : memN q.2 st.live = true := (memN_iff _ _).mpr (mem_of_mem_eraseN hql)
        have h5 := i5 q hq hqlive
        by_cases hqs : q.1 = sid
        · exfalso
          rw [hqs] at h5
          unfold activeOf at h5
          rw [hl] at h5
          dsimp only at h5
          rw [ha] at h5
          have hq2 : q.2 = pid := (Option.some.inj h5).symm
          rw [hq2] at hmem
          rw [memN_eraseN_self i3 pid] at hmem
          exact Bool.false_ne_true hmem
        · unfold activeOf at h5 ⊢
          rw [lookupS_updateS_ne hqs]
          exact h5
      · unfold holderBound at i7 ⊢
        rw [List.all_eq_true] at i7 ⊢
        intro kv hkv
        rcases mem_updateS hkv with hmem | ⟨v, hv, he⟩
        · exact i7 kv hmem
        · rw [he]
      · intro kv hkv
        rcases mem_updateS hkv with hmem | ⟨v, hv, _⟩
        · exact i8 kv hmem
        · exact i8 (kv.1, v) hv

lemma inv_start (st : AMState) (r : Option Str) (inv : InvAM st) :
    InvAM (start_session st r).1 := by
  obtain ⟨i0, i1, i2, i3, i4, i5, i7, i8, i9⟩ := inv
  unfold start_session
  refine ⟨?_, i1, i2, i3, i4, ?_, ?_, ?_, ?_⟩
  · simp only [List.map_cons, List.nodup_cons]
    constructor
    · intro hmem
      obtain ⟨kv, hkv, hk⟩ := List.mem_map.mp hmem
      have := i8 kv hkv
      omega
    · exact i0
  · intro q hq hm
    have h5 := i5 q hq hm
    have hq9 := i9 q hq
    unfold activeOf at h5 ⊢
    unfold lookupS
    rw [if_neg (by omega : ¬ st.nextSid = q.1)]
    exact h5
  · unfold holderBound at i7 ⊢
    rw [List.all_eq_true] at i7 ⊢
    intro kv hkv
    rcases List.mem_cons.mp hkv with h | h
    · rw [h]
    · exact i7 kv h
  · intro kv hkv
    rcases List.mem_cons.mp hkv with h | h
    · rw [h]
      simp
    · have := i8 kv h
      dsimp only
      omega
  · intro q hq
    have := i9 q hq
    dsimp only
    omega

lemma inv_send (st : AMState) (sid : Nat) (inv : InvAM st) :
    InvAM (send_message st sid).1 := by
  have invk := inv_kill st sid inv
  unfold send_message
  cases hl : lookupS sid (kill_active_process st sid).sessions with
  | none =>
    simp only [hl]
    exact invk
  | some sess =>
    simp only [hl]
    obtain ⟨i0, i1, i2, i3, i4, i5, i7, i8, i9⟩ := invk
    have hact : activeOf (kill_active_process st sid) sid = none := activeOf_kill_self st sid
    refine ⟨?_, ?_, ?_, ?_, ?_, ?_, ?_, ?_, ?_⟩
    · rw [map_fst_updateS]
      exact i0
    · intro q hq
      rcases List.mem_cons.mp hq with h | h
      · rw [h]
        simp
      · have := i1 q h
        dsimp only
        omega
    · intro p hp
      rcases List.mem_cons.mp hp with h | h
      · rw [h]
        simp
      · have := i2 p h
        dsimp only
        omega
    · simp only [List.nodup_cons]
      refine ⟨fun hmem => ?_, i3⟩
      have := i2 _ hmem
      omega
    · simp only [List.map_cons, List.nodup_cons]
      refine ⟨fun hmem => ?_, i4⟩
      obtain ⟨q, hq, hq2⟩ := List.mem_map.mp hmem
      have := i1 q hq
      omega
    · intro q hq hm
      rcases List.mem_cons.mp hq with h | h
      · rw [h]
        unfold activeOf
        rw [lookupS_updateS_self, hl]
        rfl
      · have hlt : q.2 < (kill_active_process st sid).nextPid := i1 q h
        have hm' : memN q.2 (kill_active_process st sid).live = true := by
          unfold memN at hm
          have hne : (q.2 == (kill_active_process st sid).nextPid) = false := by
            rw [beq_eq_false_iff_ne]
            omega
          rw [hne, Bool.false_or] at hm
          exact hm
        have h5 := i5 q h hm'
        by_cases hqs : q.1 = sid
        · exfalso
          rw [hqs] at h5
          rw [hact] at h5
          exact Option.noConfusion h5
        · unfold activeOf at h5 ⊢
          rw [lookupS_updateS_ne hqs]
          exact h5
    · unfold holderBound at i7 ⊢
      rw [List.all_eq_true] at i7 ⊢
      intro kv hkv
      rcases mem_updateS hkv with hmem | ⟨v, hv, he⟩
      · have h7 := i7 kv hmem
        cases hac : kv.2.active_child with
        | none => rfl
        | some p =>
          rw [hac] at h7
          have hp : p < (kill_active_process st sid).nextPid := of_decide_eq_true h7
          dsimp only
          rw [decide_eq_true_eq]
          omega
      · rw [he]
        dsimp only
        rw [decide_eq_true_eq]
        omega
    · intro kv hkv
      rcases mem_updateS hkv with hmem | ⟨v, hv, _⟩
      · exact i8 kv hmem
      · exact i8 (kv.1, v) hv
    · intro q hq
      rcases List.mem_cons.mp hq with h | h
      · rw [h]
        exact i8 (sid, sess) (lookupS_mem hl)
      · exact i9 q h

lemma inv_stop (st : AMState) (sid : Nat) (inv : InvAM st) :
    InvAM (stop_session st sid).1 := by
  have invk := inv_kill st sid inv
  unfold stop_session
  cases hl : lookupS sid (kill_active_process st sid).sessions with
  | none =>
    simp only [hl]
    exact invk
  | some sess =>
    simp only [hl]
    obtain ⟨i0, i1, i2, i3, i4, i5, i7, i8, i9⟩ := invk
    have hact : activeOf (kill_active_process st sid) sid = none := activeOf_kill_self st sid
    refine ⟨?_, i1, i2, i3, i4, ?_, ?_, ?_, i9⟩
    · exact i0.sublist ((removeS_sublist sid _).map Prod.fst)
    · intro q hq hm
      have h5 := i5 q hq hm
      by_cases hqs : q.1 = sid
      · exfalso
        rw [hqs] at h5
        rw [hact] at h5
        exact Option.noConfusion h5
      · unfold activeOf at h5 ⊢
        rw [lookupS_removeS_ne hqs]
        exact h5
    · unfold holderBound at i7 ⊢
      rw [List.all_eq_true] at i7 ⊢
      intro kv hkv
      exact i7 kv ((removeS_sublist sid _).subset hkv)
    · intro kv hkv
      exact i8 kv ((removeS_sublist sid _).subset hkv)

lemma inv_exit (st : AMState) (pid : Nat) (inv : InvAM st) :
    InvAM (proc_exit st pid) := by
  obtain ⟨i0, i1, i2, i3, i4, i5, i7, i8, i9⟩ := inv
  unfold proc_exit
  refine ⟨?_, i1, ?_, ?_, i4, ?_, ?_, ?_, i9⟩
  · rw [map_fst_map_clearHolder]
    exact i0
  · intro p hp
    exact i2 p (mem_of_mem_eraseN hp)
  · exact nodup_eraseN pid i3
  · intro q hq hm
    have hql : q.2 ∈ eraseN pid st.live := (memN_iff _ _).mp hm
    have hqlive : memN q.2 st.live = true := (memN_iff _ _).mpr (mem_of_mem_eraseN hql)
    have h5 := i5 q hq hqlive
    have hne : q.2 ≠ pid := by
      intro he
      rw [he] at hm
      rw [memN_eraseN_self i3 pid] at hm
      exact Bool.false_ne_true hm
    unfold activeOf at h5 ⊢
    rw [lookupS_map_clearHolder]
    cases hlq : lookupS q.1 st.sessions with
    | none =>
      rw [hlq] at h5
      exact Option.noConfusion h5
    | some s =>
      rw [hlq] at h5
      dsimp only at h5
      simp only [Option.map_some']
      rw [if_neg (by rw [h5]; intro hx; exact hne (Option.some.inj hx))]
      exact h5
  · unfold holderBound at i7 ⊢
    rw [List.all_eq_true] at i7 ⊢
    intro kv hkv
    obtain ⟨kv0, hkv0, rfl⟩ := List.mem_map.mp hkv
    have h7 := i7 kv0 hkv0
    by_cases hc : kv0.2.active_child = some pid
    · rw [show clearHolder pid kv0 = (kv0.1, { kv0.2 with active_child := none }) from by
        unfold clearHolder; rw [if_pos hc]]
    · rw [show clearHolder pid kv0 = kv0 from by
        unfold clearHolder; rw [if_neg hc]]
      exact h7
  · intro kv hkv
    obtain ⟨kv0, hkv0, rfl⟩ := List.mem_map.mp hkv
    rw [clearHolder_fst]
    exact i8 kv0 hkv0

lemma inv_step (st : AMState) (op : AMOp) (inv : InvAM st) : InvAM (stepAM st op) := by
  cases op with
  | start r => exact inv_start st r inv
  | send sid => exact inv_send st sid inv
  | stop sid => exact inv_stop st sid inv
  | exitProc pid => exact inv_exit st pid inv

lemma inv_run (ops : List AMOp) : ∀ st : AMState, InvAM st → InvAM (runAM ops st) := by
  induction ops with
  | nil => intro st inv; exact inv
  | cons op rest ih =>
    intro st inv
    exact ih (stepAM st op) (inv_step st op inv)

lemma inv_init : InvAM initAM := by decide

/-- C3: at most one live child process per session.  First conjunct: after
every sequence of start/send/stop operations (and natural exits) from the
empty registry, each session has at most one live spawned child.  Second
conjunct: `send_message` kills the session's current active child before
spawning — the old child is no longer live once the send completes.  Third
conjunct: two consecutive sends on one session leave exactly one live child
once both settle. -/
theorem single_live_child_per_session :
    (∀ (ops : List AMOp) (sid : Nat), liveChildren (runAM ops initAM) sid ≤ 1)
      ∧ (∀ (st : AMState) (sid : Nat) (sess : AMSession) (pid : Nat), InvAM st →
          lookupS sid st.sessions = some sess → sess.active_child = some pid →
          memN pid (send_message st sid).1.live = false)
      ∧ liveChildren (runAM [AMOp.start none, AMOp.send 0, AMOp.send 0] initAM) 0 = 1 := by
  refine ⟨?_, ?_, by decide⟩
  · intro ops sid
    exact liveChildren_le_one _ sid (inv_run ops initAM inv_init)
  · intro st sid sess pid inv hl ha
    obtain ⟨i0, i1, i2, i3, i4, i5, i7, i8, i9⟩ := inv
    have hbound : pid < st.nextPid := by
      unfold holderBound at i7
      rw [List.all_eq_true] at i7
      have h7 := i7 (sid, sess) (lookupS_mem hl)
      dsimp only at h7
      rw [ha] at h7
      exact of_decide_eq_true h7
    have hkill := kill_eq_of_child hl ha
    have hlook2 : lookupS sid (kill_active_process st sid).sessions
        = some { sess with active_child := none } := by
      rw [hkill]
      dsimp only
      rw [lookupS_updateS_self, hl]
      rfl
    unfold send_message
    dsimp only
    rw [hlook2]
    dsimp only
    rw [hkill]
    dsimp only
    unfold memN
    have h1 : (pid == st.nextPid) = false := by
      rw [beq_eq_false_iff_ne]
      omega
    rw [h1, Bool.false_or]
    exact memN_eraseN_self i3 pid

/-- Witness for C3: applying the kill-before-spawn conjunct to a concrete
registry holding one session with live child 0. -/
theorem single_live_child_per_session_witness :
    memN 0 (send_message
      { sessions := [(0, { claude_session_id := none, pid := some 0, active_child := some 0 })],
        live := [0], spawned := [(0, 0)], nextPid := 1, nextSid := 1 } 0).1.live = false :=
  single_live_child_per_session.2.1
    { sessions := [(0, { claude_session_id := none, pid := some 0, active_child := some 0 })],
      live := [0], spawned := [(0, 0)], nextPid := 1, nextSid := 1 }
    0 { claude_session_id := none, pid := some 0, active_child := some 0 } 0
    (by decide) (by decide) (by decide)
